import Mathlib

/-!
Shallow embedding of the cloudshell CLI (src/main.go) for checking its
natural-language specification. Pure helpers are translated directly;
effectful functions are modeled by explicit oracles for their fallible
steps together with a list of observable events emitted in program order.
-/

set_option maxRecDepth 8000

namespace Cloudshell

/-- Model of the environment JSON shape decoded by getEnvironment in
src/main.go (type environment). -/
structure environment where
  DockerImage : String
  State : String
  WebHost : String
  SSHUsername : String
  SSHHost : String
  SSHPort : Int
  PublicKeys : List String
  deriving DecidableEq

/-- Model of strings.TrimSuffix from the Go standard library as called in
src/main.go: when s ends with suf, the one trailing copy of suf is removed,
otherwise s is returned unchanged. Strings are modeled by their character
data. -/
def trimSuffix (s suf : String) : String :=
  if suf.data <:+ s.data then
    String.mk (s.data.take (s.data.length - suf.data.length))
  else s

/-- Model of uppercaseFirst from src/main.go: an empty string is returned
unchanged, otherwise the first rune is uppercased. Char.toUpper covers the
ASCII range, which covers the provider state strings this program prints. -/
def uppercaseFirst (s : String) : String :=
  match s.data with
  | [] => s
  | c :: rest => String.mk (Char.toUpper c :: rest)

/-- Model of strings.ToLower as applied by app.info (ASCII range, which
covers the provider state strings). -/
def toLowerGo (s : String) : String :=
  String.mk (s.data.map Char.toLower)

/-- Containment of sub somewhere inside s, used to state what a printed
line contains. -/
def strContains (s sub : String) : Prop :=
  sub.data <:+: s.data

instance (s sub : String) : Decidable (strContains s sub) := by
  unfold strContains; infer_instance

/-- Model of app.info (src/main.go lines 305-335) after getEnvironment
succeeded: the lines logged, in order. The %s and %d directives of logf are
modeled by string append and decimal rendering. -/
def infoOutput (e : environment) : List String :=
  [uppercaseFirst (toLowerGo e.State) ++ "."]
  ++ ["Docker image: " ++ e.DockerImage]
  ++ (if e.WebHost = "" then [] else ["Web host: " ++ e.WebHost])
  ++ (if e.SSHHost ≠ "" ∧ e.SSHPort ≠ 0 ∧ e.SSHUsername ≠ "" then
        ["SSH connection details:",
         "  Host:     " ++ e.SSHHost,
         "  Port:     " ++ toString e.SSHPort,
         "  Username: " ++ e.SSHUsername]
      else ["SSH is unavailable."])

/-- Result of one getEnvironment call: the decoded environment, or a
transport/API error carrying a message. -/
inductive GetResult where
  | ok (e : environment)
  | err (msg : String)
  deriving DecidableEq

/-- Way the poll loop of app.start returns. Both success and canceled map to
return nil in the Go code; failure m maps to return err. -/
inductive StartOutcome where
  | success
  | canceled
  | failure (msg : String)
  deriving DecidableEq

/-- Error value carried by the Go return statement for each outcome of
app.start: nil on success as well as on context cancellation. -/
def outcomeError : StartOutcome → Option String
  | .failure m => some m
  | _ => none

/-- Observable provider-facing events of app.start, in program order. -/
inductive Event where
  | startReq (publicKeys : List String)
  | getReq
  | tickWait
  | ret (o : StartOutcome)
  deriving DecidableEq

def isStartReq : Event → Bool
  | .startReq _ => true
  | _ => false

def isGetReq : Event → Bool
  | .getReq => true
  | _ => false

def isTickWait : Event → Bool
  | .tickWait => true
  | _ => false

def isRet : Event → Bool
  | .ret _ => true
  | _ => false

/-- Model of the polling loop of app.start (src/main.go lines 385-403).
get k is the result of the k-th getEnvironment call counting from 0, and
cancel k tells whether ctx.Done is already closed at the select that follows
the k-th poll. fuel bounds how many iterations are modeled: when it runs out
the remainder of the (potentially infinite) trace is cut off, so a trace
without a ret event is a run that has not returned within fuel polls. -/
def pollEvents (get : Nat → GetResult) (cancel : Nat → Bool) : Nat → Nat → List Event
  | 0, _ => []
  | fuel + 1, n =>
    Event.getReq ::
      match get n with
      | .err m => [Event.ret (.failure m)]
      | .ok e =>
        if e.State = "RUNNING" then [Event.ret .success]
        else if cancel n then [Event.ret .canceled]
        else Event.tickWait :: pollEvents get cancel fuel (n + 1)

/-- Public keys carried by the :start request body built in app.start: the
managed public key file contents with a trailing newline trimmed. -/
def startPublicKeys (pubKeyFile : String) : List String :=
  [trimSuffix pubKeyFile "\n"]

/-- Model of app.start (src/main.go lines 360-403) after initClient,
ensureSSHKey and the public key read succeeded: the :start request is issued
exactly once (startResult none models a 2xx response, some m an error return
from makeRequest), then the poll loop runs. -/
def appStartEvents (pubKeyFile : String) (startResult : Option String)
    (get : Nat → GetResult) (cancel : Nat → Bool) (fuel : Nat) : List Event :=
  Event.startReq (startPublicKeys pubKeyFile) ::
    match startResult with
    | some m => [Event.ret (.failure m)]
    | none => pollEvents get cancel fuel 0

/-- Model of the oauth2.Token fields persisted in token.json. The expiry is
an opaque timestamp; getToken never inspects it. -/
structure Token where
  accessToken : String
  tokenType : String
  refreshToken : String
  expiry : Int
  deriving DecidableEq

/-- Outcome of the blocking select in getToken: either the loopback callback
delivered an authorization code, or the governing context was canceled
first. -/
inductive Rendezvous where
  | code (c : String)
  | ctxDone
  deriving DecidableEq

/-- Oracle for every fallible step of app.getToken
(src/main.go lines 137-236). -/
structure AuthWorld where
  tokenFile : Option String
  unmarshal : String → Option Token
  listenOk : Bool
  rendezvous : Rendezvous
  exchange : String → Option Token
  marshalOk : Bool
  writeOk : Bool

/-- Observable events of app.getToken, in program order. -/
inductive AuthEvent where
  | listenOpen
  | prompt
  | exchangeReq (code : String)
  | saveToken
  | listenClose
  deriving DecidableEq

/-- Return value of app.getToken. -/
inductive GetTokenResult where
  | tok (t : Token)
  | err (msg : String)
  deriving DecidableEq

/-- Events of getToken from after the listener is up to just before the
deferred l.Close() runs: the authorization prompt (browser launch or printed
URL), then either cancellation at the select or the code exchange followed by
marshaling and saving the new token. -/
def getTokenAfterListen (w : AuthWorld) : GetTokenResult × List AuthEvent :=
  match w.rendezvous with
  | .ctxDone => (.err "context canceled", [.prompt])
  | .code c =>
    match w.exchange c with
    | none => (.err "exchange failed", [.prompt, .exchangeReq c])
    | some t =>
      if w.marshalOk then
        if w.writeOk then (.tok t, [.prompt, .exchangeReq c, .saveToken])
        else (.err "failed to write token file", [.prompt, .exchangeReq c])
      else (.err "failed to marshal token", [.prompt, .exchangeReq c])

/-- Acquisition path of app.getToken, taken when no cached token was usable:
open the loopback listener (net.Listen), and on success run the rest of the
flow with the deferred l.Close() appended as the final listenClose event of
every such path. -/
def getTokenAcquire (w : AuthWorld) : GetTokenResult × List AuthEvent :=
  if w.listenOk then
    ((getTokenAfterListen w).1,
      AuthEvent.listenOpen :: (getTokenAfterListen w).2 ++ [AuthEvent.listenClose])
  else (.err "could not start local server", [])

/-- Model of app.getToken: read the cached token file and return it as-is
when it parses; otherwise run the loopback authorization flow. -/
def getToken (w : AuthWorld) : GetTokenResult × List AuthEvent :=
  match w.tokenFile with
  | some s =>
    match w.unmarshal s with
    | some t => (.tok t, [])
    | none => getTokenAcquire w
  | none => getTokenAcquire w

/-- Oracle for the fallible steps of app.sshExec
(src/main.go lines 406-502), in program order. -/
structure SSHWorld where
  readKey : Option String
  parseKeyOk : Bool
  dialOk : Bool
  newSessionOk : Bool
  isTerminal : Bool
  makeRawOk : Bool
  getSizeOk : Bool
  requestPtyOk : Bool
  shellOk : Bool
  waitResult : Option String

/-- Observable local-side events of app.sshExec: the network dial attempt,
the switch of the local terminal into raw mode, and the deferred
term.Restore. -/
inductive SSHEvent where
  | dialAttempt
  | rawModeOn
  | restore
  deriving DecidableEq

/-- Part of sshExec that runs once the terminal is in raw mode (after
term.MakeRaw succeeded and defer term.Restore is registered): terminal size
query, pty request, shell request, wait for the remote exit status. -/
def sshExecAfterRaw (w : SSHWorld) : Option String :=
  if ¬ w.getSizeOk then some "failed to get terminal size"
  else if ¬ w.requestPtyOk then some "failed to request pty"
  else if ¬ w.shellOk then some "failed to start shell"
  else w.waitResult

/-- Model of app.sshExec: the returned error (none models a nil return) and
the observable events, with the deferred term.Restore appended on every path
entered after raw mode was switched on. -/
def sshExec (e : environment) (w : SSHWorld) : Option String × List SSHEvent :=
  if e.SSHHost = "" ∨ e.SSHPort = 0 ∨ e.SSHUsername = "" then
    (some "connection with SSH is unavailable", [])
  else
    match w.readKey with
    | none => (some "failed to read private key", [])
    | some _ =>
      if ¬ w.parseKeyOk then (some "failed to parse private key", [])
      else if ¬ w.dialOk then (some "failed to dial", [.dialAttempt])
      else if ¬ w.newSessionOk then (some "failed to create session", [.dialAttempt])
      else if ¬ w.isTerminal then
        (some "standard input is not a terminal, cannot start interactive ssh session",
          [.dialAttempt])
      else if ¬ w.makeRawOk then
        (some "failed to set terminal to raw mode", [.dialAttempt])
      else
        (sshExecAfterRaw w, [.dialAttempt, .rawModeOn, .restore])

/-- Key string carried by the :addPublicKey request body built by app.keyAdd
(src/main.go lines 524-538): the argument with a trailing newline trimmed. -/
def keyAddBody (key : String) : String := trimSuffix key "\n"

/-- Key string carried by the :removePublicKey request body built by
app.keyRemove (src/main.go lines 540-554): the argument with a trailing
newline trimmed. -/
def keyRemoveBody (key : String) : String := trimSuffix key "\n"

def isListenOpen : AuthEvent → Bool
  | .listenOpen => true
  | _ => false

def isListenClose : AuthEvent → Bool
  | .listenClose => true
  | _ => false

/-! Concrete data used by witnesses and counterexamples. -/

def envDISABLED : environment := ⟨"", "DISABLED", "", "", "", 0, []⟩

def envSTARTING : environment := ⟨"", "STARTING", "", "", "", 0, []⟩

def envRUNNING : environment := ⟨"", "RUNNING", "", "", "", 0, []⟩

def envDELETING : environment := ⟨"", "DELETING", "", "", "", 0, []⟩

def c2get : Nat → GetResult := fun k =>
  if k = 0 then .ok envDISABLED else if k = 1 then .ok envSTARTING else .ok envRUNNING

def c6get : Nat → GetResult := fun k =>
  if k = 0 then .ok envDISABLED else .ok envSTARTING

def c9get : Nat → GetResult := fun k =>
  if k = 0 then .ok envSTARTING else .err "googleapi: 503"

def deletingGet : Nat → GetResult := fun _ => .ok envDELETING

/-- Environment of spec scenario B: RUNNING with populated connection
fields. -/
def scenarioBEnv : environment := ⟨"", "RUNNING", "", "user", "1.2.3.4", 6000, []⟩

def c4token : Token := ⟨"ya29.cached", "Bearer", "1//refresh", -1⟩

def c4world : AuthWorld :=
  { tokenFile := some "{}", unmarshal := fun _ => some c4token, listenOk := true,
    rendezvous := .ctxDone, exchange := fun _ => none, marshalOk := true,
    writeOk := true }

def c7world : AuthWorld :=
  { tokenFile := none, unmarshal := fun _ => none, listenOk := true,
    rendezvous := .code "abc123", exchange := fun _ => some c4token,
    marshalOk := true, writeOk := true }

def c3env : environment := ⟨"img", "RUNNING", "", "user", "1.2.3.4", 6000, []⟩

/-- World in which every step up to and including MakeRaw succeeds and the
pty request then fails. -/
def c3world : SSHWorld :=
  { readKey := some "PEM", parseKeyOk := true, dialOk := true,
    newSessionOk := true, isTerminal := true, makeRawOk := true,
    getSizeOk := true, requestPtyOk := false, shellOk := true,
    waitResult := none }

/-- Environment that is RUNNING but has an empty sshHost. -/
def c5env : environment := ⟨"", "RUNNING", "", "user", "", 6000, []⟩

def c5world : SSHWorld :=
  { readKey := some "PEM", parseKeyOk := true, dialOk := true,
    newSessionOk := true, isTerminal := true, makeRawOk := true,
    getSizeOk := true, requestPtyOk := true, shellOk := true,
    waitResult := none }

/-! Helper lemmas about the poll loop trace. -/

lemma countP_flatten_replicate (p : Event → Bool) (j : Nat) (l : List Event) :
    ((List.replicate j l).flatten).countP p = j * l.countP p := by
  induction j with
  | zero => simp
  | succ j ih =>
    simp only [List.replicate_succ, List.flatten_cons, List.countP_append, ih,
      Nat.succ_mul]
    omega

lemma pollEvents_continue (get : Nat → GetResult) (cancel : Nat → Bool)
    (fuel n : Nat) (e : environment) (hget : get n = .ok e)
    (hst : e.State ≠ "RUNNING") (hc : cancel n = false) :
    pollEvents get cancel (fuel + 1) n =
      Event.getReq :: Event.tickWait :: pollEvents get cancel fuel (n + 1) := by
  simp only [pollEvents]
  rw [hget]
  simp [hst, hc]

lemma pollEvents_running (get : Nat → GetResult) (cancel : Nat → Bool)
    (fuel n : Nat) (e : environment) (hget : get n = .ok e)
    (hst : e.State = "RUNNING") :
    pollEvents get cancel (fuel + 1) n = [Event.getReq, Event.ret .success] := by
  simp only [pollEvents]
  rw [hget]
  simp [hst]

lemma pollEvents_canceled (get : Nat → GetResult) (cancel : Nat → Bool)
    (fuel n : Nat) (e : environment) (hget : get n = .ok e)
    (hst : e.State ≠ "RUNNING") (hc : cancel n = true) :
    pollEvents get cancel (fuel + 1) n = [Event.getReq, Event.ret .canceled] := by
  simp only [pollEvents]
  rw [hget]
  simp [hst, hc]

lemma pollEvents_error (get : Nat → GetResult) (cancel : Nat → Bool)
    (fuel n : Nat) (m : String) (hget : get n = .err m) :
    pollEvents get cancel (fuel + 1) n = [Event.getReq, Event.ret (.failure m)] := by
  simp only [pollEvents]
  rw [hget]

lemma pollEvents_run (get : Nat → GetResult) (cancel : Nat → Bool) :
    ∀ (j fuel n : Nat), j ≤ fuel →
      (∀ k, k < j → (∃ e, get (n + k) = .ok e ∧ e.State ≠ "RUNNING") ∧
        cancel (n + k) = false) →
      pollEvents get cancel fuel n =
        (List.replicate j [Event.getReq, Event.tickWait]).flatten
          ++ pollEvents get cancel (fuel - j) (n + j) := by
  intro j
  induction j with
  | zero => intro fuel n _ _; simp
  | succ j ih =>
    intro fuel n hle h
    obtain ⟨f, rfl⟩ : ∃ f, fuel = f + 1 := ⟨fuel - 1, by omega⟩
    obtain ⟨⟨e, hget, hst⟩, hcan⟩ := h 0 (Nat.succ_pos j)
    rw [Nat.add_zero] at hget hcan
    rw [pollEvents_continue get cancel f n e hget hst hcan]
    have hshift : ∀ k, k < j → (∃ e, get (n + 1 + k) = .ok e ∧ e.State ≠ "RUNNING") ∧
        cancel (n + 1 + k) = false := by
      intro k hk
      have hh := h (k + 1) (by omega)
      rwa [show n + (k + 1) = n + 1 + k by omega] at hh
    rw [ih f (n + 1) (by omega) hshift]
    rw [show f + 1 - (j + 1) = f - j by omega, show n + (j + 1) = n + 1 + j by omega]
    simp [List.replicate_succ]

lemma startTrace_counts (ks : List String) (N : Nat) (o : StartOutcome) :
    (Event.startReq ks :: ((List.replicate N [Event.getReq, Event.tickWait]).flatten
        ++ [Event.getReq, Event.ret o])).countP isStartReq = 1 ∧
    (Event.startReq ks :: ((List.replicate N [Event.getReq, Event.tickWait]).flatten
        ++ [Event.getReq, Event.ret o])).countP isGetReq = N + 1 ∧
    (Event.startReq ks :: ((List.replicate N [Event.getReq, Event.tickWait]).flatten
        ++ [Event.getReq, Event.ret o])).countP isTickWait = N ∧
    (Event.startReq ks :: ((List.replicate N [Event.getReq, Event.tickWait]).flatten
        ++ [Event.getReq, Event.ret o])).getLast? = some (Event.ret o) := by
  refine ⟨?_, ?_, ?_, ?_⟩
  · simp [List.countP_cons, List.countP_append, countP_flatten_replicate, isStartReq]
  · simp [List.countP_cons, List.countP_append, countP_flatten_replicate, isGetReq]
  · simp [List.countP_cons, List.countP_append, countP_flatten_replicate, isTickWait]
  · rw [← List.cons_append, List.getLast?_append_of_ne_nil _ (by simp)]
    rfl

/-- C2: when the provider reports non-RUNNING states for the first N polls
and RUNNING at poll N, and the context is not canceled, app.start issues
exactly one :start request and exactly N+1 getEnvironment calls, waits
exactly N tick intervals, and returns success. With N = 0 — a provider that
always reports RUNNING — this is exactly one get call and zero tick waits,
so success is returned without waiting any poll interval. -/
theorem start_converges_after_N_polls
    (pk : String) (get : Nat → GetResult) (cancel : Nat → Bool) (N fuel : Nat)
    (hpre : ∀ k, k < N → (∃ e, get k = .ok e ∧ e.State ≠ "RUNNING") ∧ cancel k = false)
    (hN : ∃ e, get N = .ok e ∧ e.State = "RUNNING")
    (hfuel : N < fuel) :
    (appStartEvents pk none get cancel fuel).countP isStartReq = 1 ∧
    (appStartEvents pk none get cancel fuel).countP isGetReq = N + 1 ∧
    (appStartEvents pk none get cancel fuel).countP isTickWait = N ∧
    (appStartEvents pk none get cancel fuel).getLast? = some (Event.ret .success) := by
  obtain ⟨e, hget, hst⟩ := hN
  have hrun := pollEvents_run get cancel N fuel 0 (Nat.le_of_lt hfuel)
    (by intro k hk; simpa using hpre k hk)
  simp only [Nat.zero_add] at hrun
  obtain ⟨m, hm⟩ : ∃ m, fuel - N = m + 1 := ⟨fuel - N - 1, by omega⟩
  rw [hm, pollEvents_running get cancel m N e hget hst] at hrun
  have htr : appStartEvents pk none get cancel fuel =
      Event.startReq (startPublicKeys pk) ::
        ((List.replicate N [Event.getReq, Event.tickWait]).flatten
          ++ [Event.getReq, Event.ret .success]) := by
    simp only [appStartEvents]
    rw [hrun]
  rw [htr]
  exact startTrace_counts (startPublicKeys pk) N .success

/-- C2 witness: a provider that is DISABLED at poll 0, STARTING at poll 1
and RUNNING at poll 2, so N = 2: one :start request, three get calls, two
tick waits, success. -/
theorem start_converges_after_N_polls_witness :
    (appStartEvents "mykey" none c2get (fun _ => false) 4).countP isStartReq = 1 ∧
    (appStartEvents "mykey" none c2get (fun _ => false) 4).countP isGetReq = 2 + 1 ∧
    (appStartEvents "mykey" none c2get (fun _ => false) 4).countP isTickWait = 2 ∧
    (appStartEvents "mykey" none c2get (fun _ => false) 4).getLast? =
      some (Event.ret .success) :=
  start_converges_after_N_polls "mykey" c2get (fun _ => false) 2 4
    (by
      intro k hk
      interval_cases k
      · exact ⟨⟨envDISABLED, rfl, by decide⟩, rfl⟩
      · exact ⟨⟨envSTARTING, rfl, by decide⟩, rfl⟩)
    ⟨envRUNNING, rfl, rfl⟩
    (by omega)

/-- C6: when the governing context is canceled by the time of the select
that follows poll M (the provider still reporting a non-RUNNING state
there), app.start returns at that select: no further tick is awaited, no
further getEnvironment call and no further :start request is issued, and
the Go function returns nil — outcomeError of the canceled outcome is
none. -/
theorem start_cancel_between_ticks
    (pk : String) (get : Nat → GetResult) (cancel : Nat → Bool) (M fuel : Nat)
    (hpre : ∀ k, k < M → (∃ e, get k = .ok e ∧ e.State ≠ "RUNNING") ∧ cancel k = false)
    (hM : ∃ e, get M = .ok e ∧ e.State ≠ "RUNNING")
    (hc : cancel M = true)
    (hfuel : M < fuel) :
    (appStartEvents pk none get cancel fuel).countP isStartReq = 1 ∧
    (appStartEvents pk none get cancel fuel).countP isGetReq = M + 1 ∧
    (appStartEvents pk none get cancel fuel).countP isTickWait = M ∧
    (appStartEvents pk none get cancel fuel).getLast? = some (Event.ret .canceled) ∧
    outcomeError .canceled = none := by
  obtain ⟨e, hget, hst⟩ := hM
  have hrun := pollEvents_run get cancel M fuel 0 (Nat.le_of_lt hfuel)
    (by intro k hk; simpa using hpre k hk)
  simp only [Nat.zero_add] at hrun
  obtain ⟨m, hm⟩ : ∃ m, fuel - M = m + 1 := ⟨fuel - M - 1, by omega⟩
  rw [hm, pollEvents_canceled get cancel m M e hget hst hc] at hrun
  have htr : appStartEvents pk none get cancel fuel =
      Event.startReq (startPublicKeys pk) ::
        ((List.replicate M [Event.getReq, Event.tickWait]).flatten
          ++ [Event.getReq, Event.ret .canceled]) := by
    simp only [appStartEvents]
    rw [hrun]
  rw [htr]
  have h := startTrace_counts (startPublicKeys pk) M .canceled
  exact ⟨h.1, h.2.1, h.2.2.1, h.2.2.2, rfl⟩

/-- C6 witness: DISABLED at poll 0, STARTING at poll 1, context canceled at
the select after poll 1 (M = 1): one :start request, two get calls, one tick
wait, nil return. -/
theorem start_cancel_between_ticks_witness :
    (appStartEvents "mykey" none c6get (fun k => k == 1) 3).countP isStartReq = 1 ∧
    (appStartEvents "mykey" none c6get (fun k => k == 1) 3).countP isGetReq = 1 + 1 ∧
    (appStartEvents "mykey" none c6get (fun k => k == 1) 3).countP isTickWait = 1 ∧
    (appStartEvents "mykey" none c6get (fun k => k == 1) 3).getLast? =
      some (Event.ret .canceled) ∧
    outcomeError .canceled = none :=
  start_cancel_between_ticks "mykey" c6get (fun k => k == 1) 1 3
    (by
      intro k hk
      interval_cases k
      exact ⟨⟨envDISABLED, rfl, by decide⟩, rfl⟩)
    ⟨envSTARTING, rfl, by decide⟩
    rfl
    (by omega)

/-- C9: when getEnvironment fails with a transport/API error at poll M (the
earlier polls reporting non-RUNNING states), app.start returns that very
error at once: the failed request is not retried — exactly M+1 get calls
appear in the trace, none after the failing one — no further tick is
awaited, and the loop ends with a failure return carrying the same
message. -/
theorem start_transport_error_not_retried
    (pk : String) (get : Nat → GetResult) (cancel : Nat → Bool) (M fuel : Nat)
    (msg : String)
    (hpre : ∀ k, k < M → (∃ e, get k = .ok e ∧ e.State ≠ "RUNNING") ∧ cancel k = false)
    (hM : get M = .err msg)
    (hfuel : M < fuel) :
    (appStartEvents pk none get cancel fuel).countP isStartReq = 1 ∧
    (appStartEvents pk none get cancel fuel).countP isGetReq = M + 1 ∧
    (appStartEvents pk none get cancel fuel).countP isTickWait = M ∧
    (appStartEvents pk none get cancel fuel).getLast? =
      some (Event.ret (.failure msg)) ∧
    outcomeError (.failure msg) = some msg := by
  have hrun := pollEvents_run get cancel M fuel 0 (Nat.le_of_lt hfuel)
    (by intro k hk; simpa using hpre k hk)
  simp only [Nat.zero_add] at hrun
  obtain ⟨m, hm⟩ : ∃ m, fuel - M = m + 1 := ⟨fuel - M - 1, by omega⟩
  rw [hm, pollEvents_error get cancel m M msg hM] at hrun
  have htr : appStartEvents pk none get cancel fuel =
      Event.startReq (startPublicKeys pk) ::
        ((List.replicate M [Event.getReq, Event.tickWait]).flatten
          ++ [Event.getReq, Event.ret (.failure msg)]) := by
    simp only [appStartEvents]
    rw [hrun]
  rw [htr]
  have h := startTrace_counts (startPublicKeys pk) M (.failure msg)
  exact ⟨h.1, h.2.1, h.2.2.1, h.2.2.2, rfl⟩

/-- C9 witness: STARTING at poll 0, a 503 transport error at poll 1 (M = 1):
two get calls in total, failure returned with the provider's message. -/
theorem start_transport_error_not_retried_witness :
    (appStartEvents "mykey" none c9get (fun _ => false) 3).countP isStartReq = 1 ∧
    (appStartEvents "mykey" none c9get (fun _ => false) 3).countP isGetReq = 1 + 1 ∧
    (appStartEvents "mykey" none c9get (fun _ => false) 3).countP isTickWait = 1 ∧
    (appStartEvents "mykey" none c9get (fun _ => false) 3).getLast? =
      some (Event.ret (.failure "googleapi: 503")) ∧
    outcomeError (.failure "googleapi: 503") = some "googleapi: 503" :=
  start_transport_error_not_retried "mykey" c9get (fun _ => false) 1 3 "googleapi: 503"
    (by
      intro k hk
      interval_cases k
      exact ⟨⟨envSTARTING, rfl, by decide⟩, rfl⟩)
    rfl
    (by omega)

/-- C1 counterexample: against a provider that reports DELETING on every
poll, app.start keeps polling. Within the first three modeled loop
iterations it issues three getEnvironment calls — two of them after a
DELETING state had already been observed — and never returns (the trace
contains no return event). This refutes the claim that a DELETING
observation makes the call report a fatal condition and stop polling. -/
theorem start_keeps_polling_on_deleting :
    (appStartEvents "mykey" none deletingGet (fun _ => false) 3).countP isGetReq = 3 ∧
    (appStartEvents "mykey" none deletingGet (fun _ => false) 3).countP isRet = 0 := by
  decide

/-- C1 amended: the poll loop of app.start does not treat DELETING
specially. Like any other non-RUNNING state, a DELETING observation — with
the governing context not canceled — is followed by one tick wait and a
further getEnvironment poll; only RUNNING, a transport error, or
cancellation end the loop. -/
theorem start_pollLoop_continues_on_deleting
    (get : Nat → GetResult) (cancel : Nat → Bool) (fuel n : Nat) (e : environment)
    (hget : get n = .ok e) (hst : e.State = "DELETING") (hc : cancel n = false) :
    pollEvents get cancel (fuel + 1) n =
      Event.getReq :: Event.tickWait :: pollEvents get cancel fuel (n + 1) :=
  pollEvents_continue get cancel fuel n e hget (by rw [hst]; decide) hc

/-- C1 amended witness: one concrete loop iteration observing DELETING
continues into a tick wait and the next poll. -/
theorem start_pollLoop_continues_on_deleting_witness :
    pollEvents deletingGet (fun _ => false) 1 0 =
      Event.getReq :: Event.tickWait :: pollEvents deletingGet (fun _ => false) 0 1 :=
  start_pollLoop_continues_on_deleting deletingGet (fun _ => false) 0 0 envDELETING
    rfl rfl rfl

/-! Lemmas about trimSuffix with the newline suffix. -/

lemma trimSuffix_of_newline (t : String) : trimSuffix (t ++ "\n") "\n" = t := by
  unfold trimSuffix
  rw [String.data_append, if_pos ⟨t.data, rfl⟩]
  have hlen : (t.data ++ ("\n").data).length - ("\n").data.length = t.data.length := by
    simp
  rw [hlen, List.take_left]

lemma trimSuffix_no_newline (k : String) (h : ∀ t : String, k ≠ t ++ "\n") :
    trimSuffix k "\n" = k := by
  unfold trimSuffix
  rw [if_neg]
  intro hsuf
  obtain ⟨l, hl⟩ := hsuf
  refine h (String.mk l) ?_
  apply String.ext
  rw [String.data_append]
  exact hl.symm

/-- C10: the request bodies built by keyAdd and keyRemove and the publicKeys
field of the :start request all carry the given key with a single trailing
newline removed when one is present — appending one newline back restores
the original — and carry the key unchanged when it does not end in a
newline. -/
theorem request_keys_trim_single_newline (k : String) :
    (∀ t : String, k = t ++ "\n" → keyAddBody k ++ "\n" = k) ∧
    ((∀ t : String, k ≠ t ++ "\n") → keyAddBody k = k) ∧
    keyRemoveBody k = keyAddBody k ∧
    startPublicKeys k = [keyAddBody k] := by
  refine ⟨?_, ?_, rfl, rfl⟩
  · rintro t rfl
    rw [show keyAddBody (t ++ "\n") = trimSuffix (t ++ "\n") "\n" from rfl,
      trimSuffix_of_newline]
  · intro h
    exact trimSuffix_no_newline k h

/-- C10 witness: the key abc with a trailing newline is sent as abc, and one
newline appended to the sent body restores the original key. -/
theorem request_keys_trim_single_newline_witness :
    keyAddBody "abc\n" ++ "\n" = "abc\n" :=
  (request_keys_trim_single_newline "abc\n").1 "abc" (by decide)

/-! Lemmas and theorems about getToken. -/

/-- C4: when the token file reads and parses, getToken returns the stored
token unchanged — for every expiry value, including one in the past, so no
expiry validation happens — with an empty effect trace: no local listener
is opened and no authorization prompt is shown. -/
theorem getToken_cached_short_circuit (w : AuthWorld) (s : String) (t : Token)
    (hfile : w.tokenFile = some s) (hparse : w.unmarshal s = some t) :
    getToken w = (.tok t, []) ∧
    AuthEvent.listenOpen ∉ (getToken w).2 ∧
    AuthEvent.prompt ∉ (getToken w).2 := by
  have h : getToken w = (.tok t, []) := by
    simp [getToken, hfile, hparse]
  exact ⟨h, by rw [h]; simp, by rw [h]; simp⟩

/-- C4 witness: a cached token with an expiry in the past is returned as-is
with no listener and no prompt. -/
theorem getToken_cached_short_circuit_witness :
    getToken c4world = (.tok c4token, []) ∧
    AuthEvent.listenOpen ∉ (getToken c4world).2 ∧
    AuthEvent.prompt ∉ (getToken c4world).2 :=
  getToken_cached_short_circuit c4world "{}" c4token rfl rfl

lemma afterListen_no_listener (w : AuthWorld) :
    AuthEvent.listenOpen ∉ (getTokenAfterListen w).2 ∧
    AuthEvent.listenClose ∉ (getTokenAfterListen w).2 := by
  obtain ⟨tf, um, lo, rv, ex, mo, wo⟩ := w
  cases rv with
  | ctxDone => simp [getTokenAfterListen]
  | code c =>
    cases hx : ex c with
    | none => simp [getTokenAfterListen, hx]
    | some t => cases mo <;> cases wo <;> simp [getTokenAfterListen, hx]

lemma getToken_trace_cases (w : AuthWorld) :
    (getToken w).2 = [] ∨ (getToken w).2 = (getTokenAcquire w).2 := by
  rcases htf : w.tokenFile with _ | s
  · right
    simp [getToken, htf]
  · rcases hum : w.unmarshal s with _ | t
    · right
      simp [getToken, htf, hum]
    · left
      simp [getToken, htf, hum]

lemma getTokenAcquire_trace (w : AuthWorld) :
    (getTokenAcquire w).2 = [] ∨
    (getTokenAcquire w).2 =
      AuthEvent.listenOpen :: ((getTokenAfterListen w).2 ++ [AuthEvent.listenClose]) := by
  by_cases hl : w.listenOk
  · right
    simp [getTokenAcquire, hl]
  · left
    simp [getTokenAcquire, hl]

lemma isListenOpen_eq (a : AuthEvent) : isListenOpen a = true ↔ a = .listenOpen := by
  cases a <;> simp [isListenOpen]

lemma isListenClose_eq (a : AuthEvent) : isListenClose a = true ↔ a = .listenClose := by
  cases a <;> simp [isListenClose]

/-- C7: on every outcome of getToken — cached token, listen failure,
cancellation, failed or successful exchange — a loopback listener that was
opened is closed by the time the call returns: the trace carries exactly as
many listenClose events as listenOpen events, and whenever a listener was
opened the final event before returning is the deferred l.Close(). A call
that closes its listener before returning cannot leave a bound port behind
for a later sequential call. -/
theorem getToken_listener_closed (w : AuthWorld) :
    (getToken w).2.countP isListenClose = (getToken w).2.countP isListenOpen ∧
    (AuthEvent.listenOpen ∈ (getToken w).2 →
      (getToken w).2.getLast? = some AuthEvent.listenClose) := by
  rcases getToken_trace_cases w with h | h
  · rw [h]
    exact ⟨rfl, by simp⟩
  · rcases getTokenAcquire_trace w with h2 | h2
    · rw [h, h2]
      exact ⟨rfl, by simp⟩
    · rw [h, h2]
      obtain ⟨hno, hnc⟩ := afterListen_no_listener w
      have hmidc : (getTokenAfterListen w).2.countP isListenClose = 0 := by
        rw [List.countP_eq_zero]
        intro a ha hpa
        exact hnc ((isListenClose_eq a).mp hpa ▸ ha)
      have hmido : (getTokenAfterListen w).2.countP isListenOpen = 0 := by
        rw [List.countP_eq_zero]
        intro a ha hpa
        exact hno ((isListenOpen_eq a).mp hpa ▸ ha)
      constructor
      · simp [List.countP_cons, List.countP_append, hmidc, hmido,
          isListenOpen, isListenClose]
      · intro _
        rw [← List.cons_append, List.getLast?_append_of_ne_nil _ (by simp)]
        rfl

/-- C7 witness: a full successful authorization flow opens the listener once
and its last event is the deferred close. -/
theorem getToken_listener_closed_witness :
    (getToken c7world).2.countP isListenClose = (getToken c7world).2.countP isListenOpen ∧
    (getToken c7world).2.getLast? = some AuthEvent.listenClose :=
  ⟨(getToken_listener_closed c7world).1,
    (getToken_listener_closed c7world).2 (by decide)⟩

/-! Theorems about sshExec. -/

/-- C3: sshExec never touches the local terminal mode when any step before
the raw-mode switch fails — the unavailable fast path, reading or parsing
the key, dialing, opening the session channel, the stdin terminal check, or
MakeRaw itself — and on every path entered after raw mode was switched on
(including a failed pty request) the deferred term.Restore is the last event
before the call returns; no restore ever happens on a path that never
entered raw mode. -/
theorem sshExec_restores_terminal (e : environment) (w : SSHWorld) :
    ((e.SSHHost = "" ∨ e.SSHPort = 0 ∨ e.SSHUsername = "" ∨ w.readKey = none ∨
        w.parseKeyOk = false ∨ w.dialOk = false ∨ w.newSessionOk = false ∨
        w.isTerminal = false ∨ w.makeRawOk = false) →
      SSHEvent.rawModeOn ∉ (sshExec e w).2) ∧
    (SSHEvent.rawModeOn ∉ (sshExec e w).2 → SSHEvent.restore ∉ (sshExec e w).2) ∧
    (SSHEvent.rawModeOn ∈ (sshExec e w).2 →
      (sshExec e w).2.getLast? = some SSHEvent.restore) := by
  by_cases h0 : e.SSHHost = "" ∨ e.SSHPort = 0 ∨ e.SSHUsername = ""
  · simp [sshExec, h0]
  · push_neg at h0
    obtain ⟨ha, hb, hc⟩ := h0
    obtain ⟨rk, pk, dk, ns, it, mr, gs, rp, sh, wr⟩ := w
    cases rk <;> cases pk <;> cases dk <;> cases ns <;> cases it <;> cases mr <;>
      simp [sshExec, ha, hb, hc]

/-- C3 witness: with every step up to MakeRaw succeeding and the pty request
failing, raw mode was entered and the last event is the restore. -/
theorem sshExec_restores_terminal_witness :
    (sshExec c3env c3world).2.getLast? = some SSHEvent.restore :=
  (sshExec_restores_terminal c3env c3world).2.2 (by decide)

/-- C5: an environment with an empty sshHost, or a zero sshPort, or an empty
sshUsername — whatever its state, RUNNING included — makes sshExec return
the unavailable error with an empty event trace; in particular no network
dial is attempted. -/
theorem sshExec_unavailable_no_dial (e : environment) (w : SSHWorld)
    (h : e.SSHHost = "" ∨ e.SSHPort = 0 ∨ e.SSHUsername = "") :
    sshExec e w = (some "connection with SSH is unavailable", []) ∧
    SSHEvent.dialAttempt ∉ (sshExec e w).2 := by
  have he : sshExec e w = (some "connection with SSH is unavailable", []) := by
    simp [sshExec, h]
  exact ⟨he, by rw [he]; simp⟩

/-- C5 witness: a RUNNING environment with an empty sshHost gets the
unavailable error and no dial attempt. -/
theorem sshExec_unavailable_no_dial_witness :
    sshExec c5env c5world = (some "connection with SSH is unavailable", []) ∧
    SSHEvent.dialAttempt ∉ (sshExec c5env c5world).2 :=
  sshExec_unavailable_no_dial c5env c5world (Or.inl rfl)

/-! Theorems about the info command output. -/

/-- C8 counterexample: for the scenario-B environment no single line of the
info output contains all three of 1.2.3.4, 6000 and user — host, port and
username are printed on three separate lines — so the claim, read as one
output line carrying all three values, is false. -/
theorem info_no_single_line_with_all_fields :
    ¬ ∃ l ∈ infoOutput scenarioBEnv,
        strContains l "1.2.3.4" ∧ strContains l "6000" ∧ strContains l "user" := by
  decide

/-- C8 amended: the info output for the scenario-B environment contains the
connection values on separate lines — some line contains 1.2.3.4, some line
contains 6000 and some line contains user — and the first line reports the
state as the raw provider value RUNNING lowercased with its first character
uppercased, followed by a period. -/
theorem info_scenarioB_lines :
    (∃ l ∈ infoOutput scenarioBEnv, strContains l "1.2.3.4") ∧
    (∃ l ∈ infoOutput scenarioBEnv, strContains l "6000") ∧
    (∃ l ∈ infoOutput scenarioBEnv, strContains l "user") ∧
    (infoOutput scenarioBEnv).head? = some (uppercaseFirst (toLowerGo "RUNNING") ++ ".") ∧
    uppercaseFirst (toLowerGo "RUNNING") = "Running" := by
  decide

end Cloudshell
